import Mathlib

/-!
Shallow embedding of the Wombcore/Mausilda baby sound machine
(`src/main.js`, class `SoundMachine`).

The state of a `SoundMachine` instance is embedded as `SMState`:
* `activeSounds` embeds `this.activeSounds`, a JS object mapping a sound-type
  string to the array of live audio nodes / scheduler handles, modelled as an
  association list with unique keys (the Playback Registry).
* `comboSounds` embeds `this.comboSounds`, a JS object mapping sound-type
  strings to booleans (the pending combination selection); modelled as an
  association list because the set of keys present matters.
* `timerDuration`, `timerEndTime` embed the timer fields (milliseconds).
* `timerInterval` embeds `this.timerInterval` (the stored `setInterval`
  handle, `null` or a handle id); `liveIntervals` is the set of interval
  handles currently registered with the platform, so that clearing versus
  stacking of timers is observable; `nextHandle` supplies fresh handle ids.
* `currentSound` embeds `this.currentSound`.
* `now` embeds the wall clock read by `Date.now()`, in milliseconds.
* `uiPlaying` embeds the set of sound tiles carrying the CSS class
  `playing`.
* `warnings` embeds the sequence of `console.warn` messages (the unknown
  sound type logged), `alerts` the sequence of `alert` messages, and
  `stopAllCount` counts invocations of `stopAllSounds` (observable events,
  recorded for the statements below).
-/

/-- One live Web Audio node or scheduler handle stored in an
`activeSounds` entry, tagged by the kind of node the source creates. -/
inductive Node where
  | bufferSource : Node
  | filter : Node
  | oscillator : Node
  | gain : Node
  | compressor : Node
  | scheduler : Node
deriving DecidableEq, Repr

/-- Association-list lookup, embedding a JS property read `obj[key]`. -/
def lookupA {α : Type} (c : String) : List (String × α) → Option α
  | [] => none
  | p :: ps => if p.1 = c then some p.2 else lookupA c ps

/-- Association-list update, embedding a JS property write `obj[key] = v`
(replaces the value if the key is present, otherwise appends the key). -/
def setA {α : Type} (c : String) (v : α) : List (String × α) → List (String × α)
  | [] => [(c, v)]
  | p :: ps => if p.1 = c then (c, v) :: ps else p :: setA c v ps

/-- Association-list deletion, embedding `delete obj[key]`. -/
def eraseA {α : Type} (c : String) : List (String × α) → List (String × α)
  | [] => []
  | p :: ps => if p.1 = c then eraseA c ps else p :: eraseA c ps

/-- The whole mutable state of a `SoundMachine` instance together with the
observable events it has emitted. -/
structure SMState where
  activeSounds : List (String × List Node)
  comboSounds : List (String × Bool)
  timerDuration : Nat
  timerEndTime : Nat
  timerInterval : Option Nat
  liveIntervals : List Nat
  nextHandle : Nat
  currentSound : Option String
  now : Nat
  uiPlaying : List String
  warnings : List String
  alerts : List String
  stopAllCount : Nat
deriving DecidableEq, Repr

/-- The `comboSounds` object built in the constructor (lines 40-50 of
`main.js`): nine keys, `pink-noise` included, all `false`. -/
def initCombo : List (String × Bool) :=
  [("white-noise", false), ("pink-noise", false), ("brown-noise", false),
   ("heartbeat", false), ("ocean", false), ("rain", false), ("snow", false),
   ("forest", false), ("lullaby", false)]

/-- The state right after the `SoundMachine` constructor ran. -/
def initState : SMState :=
  { activeSounds := [], comboSounds := initCombo, timerDuration := 0,
    timerEndTime := 0, timerInterval := none, liveIntervals := [],
    nextHandle := 0, currentSound := none, now := 0, uiPlaying := [],
    warnings := [], alerts := [], stopAllCount := 0 }

/-- The sound builders: which node list `playSound`'s `switch` stores into
`activeSounds` for each known sound type (`playWhiteNoise` …
`playLullaby`); `none` for an identifier with no matching builder
(the `default` branch of the `switch`). -/
def builder (c : String) : Option (List Node) :=
  if c = "white-noise" then some [.bufferSource, .filter]
  else if c = "pink-noise" then some [.bufferSource, .filter]
  else if c = "brown-noise" then some [.bufferSource, .filter]
  else if c = "heartbeat" then
    some [.oscillator, .oscillator, .gain, .gain, .filter]
  else if c = "ocean" then
    some [.bufferSource, .filter, .gain, .oscillator, .gain]
  else if c = "rain" then
    some [.bufferSource, .filter, .compressor, .gain, .scheduler]
  else if c = "snow" then
    some [.bufferSource, .filter, .filter, .gain, .oscillator, .gain]
  else if c = "forest" then
    some [.bufferSource, .filter, .gain, .scheduler, .scheduler]
  else if c = "lullaby" then some [.oscillator, .gain]
  else none

/-- Membership test for the `playing` CSS class, embedding
`tile.classList.contains` followed by `classList.add` being idempotent. -/
def addUi (c : String) (l : List String) : List String :=
  if c ∈ l then l else l ++ [c]

/-- `SoundMachine.playSound` (lines 180-225): the `switch` either runs the
matching builder — which stores the node list in `activeSounds` — and then
adds the `playing` class to the category's tile, or, in the `default`
branch, logs a warning and returns without touching any state. -/
def playSound (c : String) (s : SMState) : SMState :=
  match builder c with
  | none => { s with warnings := s.warnings ++ [c] }
  | some ns =>
    { s with activeSounds := setA c ns s.activeSounds,
             uiPlaying := addUi c s.uiPlaying }

/-- `SoundMachine.stopSound` (lines 231-253): if `activeSounds[c]` is
present, stop/disconnect its nodes (an external audio effect) and
`delete activeSounds[c]`; otherwise do nothing. -/
def stopSound (c : String) (s : SMState) : SMState :=
  match lookupA c s.activeSounds with
  | some _ => { s with activeSounds := eraseA c s.activeSounds }
  | none => s

/-- `SoundMachine.clearTimer` (lines 331-348): if a timer interval handle is
stored, `clearInterval` it (remove it from the platform's live intervals)
and null the stored handle. -/
def clearTimer (s : SMState) : SMState :=
  match s.timerInterval with
  | some h =>
    { s with liveIntervals := s.liveIntervals.filter (fun i => i ≠ h),
             timerInterval := none }
  | none => s

/-- `SoundMachine.stopAllSounds` (lines 258-265): stop every key currently
in `activeSounds` (iterating over a snapshot of the keys), then clear the
timer. The `stopAllCount` bump records the invocation. -/
def stopAllSounds (s : SMState) : SMState :=
  let ks := s.activeSounds.map Prod.fst
  let s1 := ks.foldl (fun acc k => stopSound k acc) s
  let s2 := clearTimer s1
  { s2 with stopAllCount := s2.stopAllCount + 1 }

/-- The body of the `setInterval` callback installed by `setTimer`
(lines 302-313): when the clock has reached the deadline, stop all sounds,
clear the `playing` class from every tile and clear the timer. -/
def timerTickBody (s : SMState) : SMState :=
  if s.timerEndTime ≤ s.now then
    let s1 := stopAllSounds s
    let s2 := { s1 with uiPlaying := [] }
    clearTimer s2
  else s

/-- `SoundMachine.setTimer` (lines 281-314): clear any existing timer; for
`0` minutes just hide the display and return; otherwise compute the
deadline from the current clock and register a fresh 1-second interval. -/
def setTimer (minutes : Nat) (s : SMState) : SMState :=
  let s1 := clearTimer s
  if minutes = 0 then s1
  else
    let d := minutes * 60 * 1000
    { s1 with timerDuration := d, timerEndTime := s1.now + d,
              timerInterval := some s1.nextHandle,
              liveIntervals := s1.liveIntervals ++ [s1.nextHandle],
              nextHandle := s1.nextHandle + 1 }

/-- One second of simulated time: the clock advances 1000 ms and every
interval still live when its turn comes runs the timer callback. -/
def tickSecond (s : SMState) : SMState :=
  let s1 := { s with now := s.now + 1000 }
  s1.liveIntervals.foldl
    (fun acc h => if h ∈ acc.liveIntervals then timerTickBody acc else acc) s1

/-- `n` seconds of simulated time. -/
def ticks : Nat → SMState → SMState
  | 0, s => s
  | n + 1, s => ticks n (tickSecond s)

/-- The eight combo checkbox elements read by `applyComboSettings`
(lines 363-372); there is no `combo-pink-noise` checkbox read. -/
structure ComboChecks where
  whiteNoise : Bool
  brownNoise : Bool
  heartbeat : Bool
  ocean : Bool
  rain : Bool
  snow : Bool
  forest : Bool
  lullaby : Bool
deriving DecidableEq, Repr

/-- The object literal assigned to `this.comboSounds` at commit time
(lines 363-372): eight keys in source order, no `pink-noise` key. -/
def comboOf (k : ComboChecks) : List (String × Bool) :=
  [("white-noise", k.whiteNoise), ("brown-noise", k.brownNoise),
   ("heartbeat", k.heartbeat), ("ocean", k.ocean), ("rain", k.rain),
   ("snow", k.snow), ("forest", k.forest), ("lullaby", k.lullaby)]

/-- `SoundMachine.applyComboSettings` (lines 353-390): stop all playing
sounds and reset every tile, overwrite `comboSounds` with the checkbox
values, then either play every selected sound or — when nothing is
selected — show the `alert`. -/
def applyComboSettings (k : ComboChecks) (s : SMState) : SMState :=
  let s1 := stopAllSounds s
  let s2 := { s1 with uiPlaying := [] }
  let s3 := { s2 with comboSounds := comboOf k }
  if (s3.comboSounds.map Prod.snd).any id then
    s3.comboSounds.foldl
      (fun acc (p : String × Bool) => if p.2 then playSound p.1 acc else acc) s3
  else
    { s3 with alerts :=
        s3.alerts ++ ["Please select at least one sound to combine."] }

/-- `SoundMachine.stopCombo` (lines 395-418): stop every selected sound,
reset every `comboSounds` entry (and checkbox) to false, clear the
`playing` class from all tiles and null `currentSound`. -/
def stopCombo (s : SMState) : SMState :=
  let s1 := s.comboSounds.foldl
    (fun acc (p : String × Bool) => if p.2 then stopSound p.1 acc else acc) s
  let s2 := { s1 with comboSounds :=
    s1.comboSounds.map (fun (p : String × Bool) => (p.1, false)) }
  let s3 := { s2 with uiPlaying := [] }
  { s3 with currentSound := none }

/-- `SoundMachine.toggleSound` (lines 137-174): a tile already carrying the
`playing` class is stopped (the combo tile via `stopCombo`) and loses the
class; otherwise any non-combo toggle first stops everything and resets
every tile, then the combo tile merely opens the settings panel while any
other sound type is played and recorded in `currentSound`. -/
def toggleSound (c : String) (s : SMState) : SMState :=
  if c ∈ s.uiPlaying then
    let s1 := if c = "combo" then stopCombo s else stopSound c s
    { s1 with uiPlaying := s1.uiPlaying.filter (fun t => t ≠ c) }
  else
    let s1 :=
      if c ≠ "combo" then
        let sa := stopAllSounds s
        { sa with uiPlaying := [] }
      else s
    if c = "combo" then s1
    else
      let s2 := playSound c s1
      { s2 with currentSound := some c }


/-! ### Association-list lemmas -/

theorem lookupA_eq_none {α : Type} {c : String} :
    ∀ {l : List (String × α)}, lookupA c l = none → ∀ p ∈ l, p.1 ≠ c := by
  intro l
  induction l with
  | nil => intro _ p hp; cases hp
  | cons q qs ih =>
    intro h p hp
    rw [lookupA] at h
    by_cases hq : q.1 = c
    · simp [hq] at h
    · rcases List.mem_cons.mp hp with hp | hp
      · subst hp; exact hq
      · exact ih (by simpa [hq] using h) p hp

theorem eraseA_eq_self {α : Type} {c : String} :
    ∀ {l : List (String × α)}, (∀ p ∈ l, p.1 ≠ c) → eraseA c l = l := by
  intro l
  induction l with
  | nil => intro _; rfl
  | cons q qs ih =>
    intro h
    have hq : q.1 ≠ c := h q (List.mem_cons_self q qs)
    have hqs := ih (fun p hp => h p (List.mem_cons_of_mem q hp))
    simp [eraseA, hq, hqs]

theorem lookupA_eraseA_self {α : Type} (c : String) :
    ∀ l : List (String × α), lookupA c (eraseA c l) = none := by
  intro l
  induction l with
  | nil => rfl
  | cons q qs ih =>
    by_cases hq : q.1 = c
    · simpa [eraseA, hq] using ih
    · simpa [eraseA, lookupA, hq] using ih

theorem lookupA_eraseA_ne {α : Type} {c d : String} (h : d ≠ c) :
    ∀ l : List (String × α), lookupA d (eraseA c l) = lookupA d l := by
  intro l
  induction l with
  | nil => rfl
  | cons q qs ih =>
    by_cases hq : q.1 = c
    · have hqd : ¬q.1 = d := fun hh => h (by rw [← hh, hq])
      have hcd : ¬c = d := fun hh => h hh.symm
      simpa [eraseA, lookupA, hq, hqd, hcd] using ih
    · by_cases hqd : q.1 = d
      · simp [eraseA, lookupA, hq, hqd, h]
      · simpa [eraseA, lookupA, hq, hqd] using ih

theorem lookupA_setA_ne {α : Type} {c d : String} (h : d ≠ c) (v : α) :
    ∀ l : List (String × α), lookupA d (setA c v l) = lookupA d l := by
  intro l
  have hcd : ¬c = d := fun hh => h hh.symm
  induction l with
  | nil => simp [setA, lookupA, hcd]
  | cons q qs ih =>
    by_cases hq : q.1 = c
    · have hqd : ¬q.1 = d := fun hh => hcd (by rw [← hq, hh])
      simp [setA, hq, lookupA, hcd, hqd]
    · by_cases hqd : q.1 = d
      · simp [setA, hq, lookupA, hqd, h]
      · simpa [setA, hq, lookupA, hqd] using ih

theorem length_eraseA_le {α : Type} (c : String) :
    ∀ l : List (String × α), (eraseA c l).length ≤ l.length := by
  intro l
  induction l with
  | nil => exact Nat.le_refl 0
  | cons q qs ih =>
    by_cases hq : q.1 = c
    · simp only [eraseA, if_pos hq, List.length_cons]
      exact Nat.le_succ_of_le ih
    · simp only [eraseA, if_neg hq, List.length_cons]
      exact Nat.succ_le_succ ih

theorem mem_eraseA {α : Type} {c : String} {p : String × α} :
    ∀ {l : List (String × α)}, p ∈ eraseA c l → p ∈ l ∧ p.1 ≠ c := by
  intro l
  induction l with
  | nil => intro h; cases h
  | cons q qs ih =>
    intro h
    by_cases hq : q.1 = c
    · rw [eraseA, if_pos hq] at h
      rcases ih h with ⟨h1, h2⟩
      exact ⟨List.mem_cons_of_mem q h1, h2⟩
    · rw [eraseA, if_neg hq] at h
      rcases List.mem_cons.mp h with hh | hh
      · subst hh; exact ⟨List.mem_cons_self _ _, hq⟩
      · rcases ih hh with ⟨h1, h2⟩
        exact ⟨List.mem_cons_of_mem q h1, h2⟩

/-! ### Characterizations of the state operations -/

theorem stopSound_eq (c : String) (s : SMState) :
    stopSound c s = { s with activeSounds := eraseA c s.activeSounds } := by
  unfold stopSound
  cases h : lookupA c s.activeSounds with
  | some v => rfl
  | none => rw [eraseA_eq_self (lookupA_eq_none h)]

theorem fold_stop_eq :
    ∀ (ks : List String) (s : SMState),
      ks.foldl (fun acc k => stopSound k acc) s
        = { s with activeSounds := ks.foldl (fun l k => eraseA k l) s.activeSounds } := by
  intro ks
  induction ks with
  | nil => intro s; rfl
  | cons k ks ih =>
    intro s
    simp only [List.foldl_cons]
    rw [stopSound_eq, ih]

theorem eraseFold_nil :
    ∀ (ks : List String) (l : List (String × List Node)),
      (∀ p ∈ l, p.1 ∈ ks) → ks.foldl (fun acc k => eraseA k acc) l = [] := by
  intro ks
  induction ks with
  | nil =>
    intro l h
    cases l with
    | nil => rfl
    | cons p ps => exact absurd (h p (List.mem_cons_self p ps)) (List.not_mem_nil _)
  | cons k ks ih =>
    intro l h
    simp only [List.foldl_cons]
    apply ih
    intro p hp
    rcases mem_eraseA hp with ⟨h1, h2⟩
    rcases List.mem_cons.mp (h p h1) with hh | hh
    · exact absurd hh h2
    · exact hh

theorem stopAllSounds_eq (s : SMState) :
    stopAllSounds s
      = { clearTimer s with activeSounds := [],
                            stopAllCount := s.stopAllCount + 1 } := by
  simp only [stopAllSounds]
  rw [fold_stop_eq,
    eraseFold_nil _ _ (fun p hp => List.mem_map_of_mem Prod.fst hp)]
  cases hti : s.timerInterval <;> simp [clearTimer, hti]

theorem clearTimer_timerInterval (s : SMState) :
    (clearTimer s).timerInterval = none := by
  cases h : s.timerInterval <;> simp [clearTimer, h]

theorem clearTimer_activeSounds (s : SMState) :
    (clearTimer s).activeSounds = s.activeSounds := by
  cases h : s.timerInterval <;> simp [clearTimer, h]

theorem clearTimer_comboSounds (s : SMState) :
    (clearTimer s).comboSounds = s.comboSounds := by
  cases h : s.timerInterval <;> simp [clearTimer, h]

theorem clearTimer_now (s : SMState) : (clearTimer s).now = s.now := by
  cases h : s.timerInterval <;> simp [clearTimer, h]

theorem clearTimer_nextHandle (s : SMState) :
    (clearTimer s).nextHandle = s.nextHandle := by
  cases h : s.timerInterval <;> simp [clearTimer, h]

theorem clearTimer_uiPlaying (s : SMState) :
    (clearTimer s).uiPlaying = s.uiPlaying := by
  cases h : s.timerInterval <;> simp [clearTimer, h]

theorem clearTimer_warnings (s : SMState) :
    (clearTimer s).warnings = s.warnings := by
  cases h : s.timerInterval <;> simp [clearTimer, h]

theorem clearTimer_alerts (s : SMState) : (clearTimer s).alerts = s.alerts := by
  cases h : s.timerInterval <;> simp [clearTimer, h]

theorem clearTimer_stopAllCount (s : SMState) :
    (clearTimer s).stopAllCount = s.stopAllCount := by
  cases h : s.timerInterval <;> simp [clearTimer, h]

theorem clearTimer_timerEndTime (s : SMState) :
    (clearTimer s).timerEndTime = s.timerEndTime := by
  cases h : s.timerInterval <;> simp [clearTimer, h]

/-- The timer bookkeeping invariant every reachable state satisfies: the
platform's live recurring intervals are exactly the one stored in
`timerInterval` (the constructor establishes it and every operation
preserves it). -/
def wellTimed (s : SMState) : Prop :=
  s.liveIntervals = s.timerInterval.elim [] (fun h => [h])

instance (s : SMState) : Decidable (wellTimed s) := by
  unfold wellTimed; infer_instance

theorem clearTimer_cleared {s : SMState} (hw : wellTimed s) :
    clearTimer s = { s with timerInterval := none, liveIntervals := [] } := by
  unfold wellTimed at hw
  cases h : s.timerInterval with
  | none =>
    rw [h] at hw
    simp only [Option.elim] at hw
    have hc : clearTimer s = s := by simp [clearTimer, h]
    rw [hc, ← h, ← hw]
  | some k =>
    rw [h] at hw
    simp only [Option.elim] at hw
    simp [clearTimer, h, hw]

theorem setTimer_zero (s : SMState) : setTimer 0 s = clearTimer s := by
  simp [setTimer]

theorem setTimer_pos (m : Nat) (hm : m ≠ 0) (s : SMState) :
    setTimer m s
      = { clearTimer s with
            timerDuration := m * 60 * 1000,
            timerEndTime := s.now + m * 60 * 1000,
            timerInterval := some s.nextHandle,
            liveIntervals := (clearTimer s).liveIntervals ++ [s.nextHandle],
            nextHandle := s.nextHandle + 1 } := by
  simp only [setTimer, if_neg hm]
  rw [clearTimer_now, clearTimer_nextHandle]

theorem setTimer_pos_wellTimed {m : Nat} (hm : m ≠ 0) {s : SMState}
    (hw : wellTimed s) : wellTimed (setTimer m s) := by
  rw [setTimer_pos m hm, clearTimer_cleared hw]
  simp [wellTimed]

theorem tick_unarmed {s : SMState} (hl : s.liveIntervals = []) :
    tickSecond s = { s with now := s.now + 1000 } := by
  simp [tickSecond, hl]

theorem tick_armed {s : SMState} {k : Nat} (hw : wellTimed s)
    (hi : s.timerInterval = some k) :
    tickSecond s = timerTickBody { s with now := s.now + 1000 } := by
  have hl : s.liveIntervals = [k] := by
    unfold wellTimed at hw; rw [hi] at hw; simpa using hw
  simp only [tickSecond, hl, List.foldl_cons, List.foldl_nil]
  simp [hl]

theorem tickBody_wait {s : SMState} (hwait : ¬s.timerEndTime ≤ s.now) :
    timerTickBody s = s := by
  simp [timerTickBody, hwait]

theorem tickBody_fire {s : SMState} (hw : wellTimed s)
    (hfire : s.timerEndTime ≤ s.now) :
    timerTickBody s
      = { s with activeSounds := [], uiPlaying := [], timerInterval := none,
                 liveIntervals := [], stopAllCount := s.stopAllCount + 1 } := by
  simp only [timerTickBody, if_pos hfire, stopAllSounds_eq, clearTimer_cleared hw]
  simp [clearTimer]

theorem ticks_frozen (n : Nat) :
    ∀ (s : SMState), s.liveIntervals = [] →
      ticks n s = { s with now := s.now + 1000 * n } := by
  induction n with
  | zero => intro s _; simp [ticks]
  | succ n ih =>
    intro s hl
    simp only [ticks]
    rw [tick_unarmed hl, ih { s with now := s.now + 1000 } hl]
    congr 1
    show s.now + 1000 + 1000 * n = s.now + 1000 * (n + 1)
    omega

theorem ticks_fire (n : Nat) :
    ∀ (s : SMState) (k : Nat), wellTimed s → s.timerInterval = some k →
      s.now < s.timerEndTime → s.timerEndTime ≤ s.now + n * 1000 →
      (ticks n s).stopAllCount = s.stopAllCount + 1 ∧
      (ticks n s).timerInterval = none ∧
      (ticks n s).liveIntervals = [] ∧
      (ticks n s).activeSounds = [] := by
  induction n with
  | zero =>
    intro s k _ _ h2 h3
    exfalso
    omega
  | succ n ih =>
    intro s k hw hi h2 h3
    simp only [ticks]
    rw [tick_armed hw hi]
    by_cases hf : s.timerEndTime ≤ s.now + 1000
    · rw [tickBody_fire (s := { s with now := s.now + 1000 }) hw hf]
      rw [ticks_frozen n _ rfl]
      exact ⟨rfl, rfl, rfl, rfl⟩
    · rw [tickBody_wait (s := { s with now := s.now + 1000 }) hf]
      apply ih { s with now := s.now + 1000 } k hw hi
      · show s.now + 1000 < s.timerEndTime
        omega
      · show s.timerEndTime ≤ s.now + 1000 + n * 1000
        omega

/-! ### Claim C4 -/

/-- C4: when a timer armed for `m > 0` minutes reaches its deadline (a
simulated advance of at least `m * 60` seconds), `stopAllSounds` fires
exactly once — the invocation count rises by exactly one over the whole
advance — and the timer is back in the unarmed state: no stored interval
handle and no live interval remains (and the registry was emptied by the
single `stopAllSounds`). -/
theorem timer_deadline_fires_stopAll_once (s : SMState) (m n : Nat)
    (hw : wellTimed s) (hm : 0 < m) (hn : 60 * m ≤ n) :
    (ticks n (setTimer m s)).stopAllCount = (setTimer m s).stopAllCount + 1 ∧
    (ticks n (setTimer m s)).timerInterval = none ∧
    (ticks n (setTimer m s)).liveIntervals = [] ∧
    (ticks n (setTimer m s)).activeSounds = [] := by
  have hm0 : m ≠ 0 := by omega
  have hw2 : wellTimed (setTimer m s) := setTimer_pos_wellTimed hm0 hw
  have hi : (setTimer m s).timerInterval = some s.nextHandle := by
    rw [setTimer_pos m hm0]
  have h2 : (setTimer m s).now < (setTimer m s).timerEndTime := by
    rw [setTimer_pos m hm0]
    show (clearTimer s).now < s.now + m * 60 * 1000
    rw [clearTimer_now]
    omega
  have h3 : (setTimer m s).timerEndTime ≤ (setTimer m s).now + n * 1000 := by
    rw [setTimer_pos m hm0]
    show s.now + m * 60 * 1000 ≤ (clearTimer s).now + n * 1000
    rw [clearTimer_now]
    omega
  exact ticks_fire n (setTimer m s) s.nextHandle hw2 hi h2 h3

/-- Witness for C4: arming the timer for one minute from the freshly
constructed state and advancing sixty seconds. -/
theorem timer_deadline_fires_stopAll_once_witness :
    (ticks 60 (setTimer 1 initState)).stopAllCount
        = (setTimer 1 initState).stopAllCount + 1 ∧
    (ticks 60 (setTimer 1 initState)).timerInterval = none ∧
    (ticks 60 (setTimer 1 initState)).liveIntervals = [] ∧
    (ticks 60 (setTimer 1 initState)).activeSounds = [] :=
  timer_deadline_fires_stopAll_once initState 1 60 (by decide) (by decide)
    (by decide)

theorem clearTimer_wellTimed {s : SMState} (hw : wellTimed s) :
    wellTimed (clearTimer s) := by
  rw [clearTimer_cleared hw]
  simp [wellTimed]

theorem setTimer_wellTimed (m : Nat) {s : SMState} (hw : wellTimed s) :
    wellTimed (setTimer m s) := by
  by_cases hm : m = 0
  · subst hm
    rw [setTimer_zero]
    exact clearTimer_wellTimed hw
  · exact setTimer_pos_wellTimed hm hw

theorem setTimer_now (m : Nat) (s : SMState) : (setTimer m s).now = s.now := by
  by_cases hm : m = 0
  · subst hm
    rw [setTimer_zero]
    exact clearTimer_now s
  · rw [setTimer_pos m hm]
    show (clearTimer s).now = s.now
    exact clearTimer_now s

theorem setTimer_activeSounds (m : Nat) (s : SMState) :
    (setTimer m s).activeSounds = s.activeSounds := by
  by_cases hm : m = 0
  · subst hm
    rw [setTimer_zero]
    exact clearTimer_activeSounds s
  · rw [setTimer_pos m hm]
    show (clearTimer s).activeSounds = s.activeSounds
    exact clearTimer_activeSounds s

/-! ### Claim C7 -/

/-- C7: re-arming the timer replaces the previous timer instead of
stacking: after `setTimer a` followed by `setTimer b` with `b > 0` exactly
one recurring interval is live and the single deadline equals
`now + b` minutes (in ms), not `a + b` and not `a`; and `setTimer 0` while
armed immediately clears the stored handle and the live interval without
waiting for any deadline. -/
theorem rearm_replaces_deadline (s : SMState) (a b : Nat) (hw : wellTimed s)
    (hb : 0 < b) :
    (setTimer b (setTimer a s)).liveIntervals.length = 1 ∧
    (setTimer b (setTimer a s)).timerEndTime = s.now + b * 60 * 1000 ∧
    (setTimer b (setTimer a s)).timerInterval ≠ none ∧
    (0 < a → (setTimer 0 (setTimer a s)).timerInterval = none ∧
             (setTimer 0 (setTimer a s)).liveIntervals = []) := by
  have hb0 : b ≠ 0 := by omega
  have hwt : wellTimed (setTimer a s) := setTimer_wellTimed a hw
  refine ⟨?_, ?_, ?_, ?_⟩
  · rw [setTimer_pos b hb0, clearTimer_cleared hwt]
    simp
  · rw [setTimer_pos b hb0]
    show (setTimer a s).now + b * 60 * 1000 = s.now + b * 60 * 1000
    rw [setTimer_now]
  · rw [setTimer_pos b hb0]
    simp
  · intro _
    rw [setTimer_zero]
    refine ⟨clearTimer_timerInterval _, ?_⟩
    rw [clearTimer_cleared hwt]

/-- Witness for C7: arm 15 minutes then 30 minutes from the initial
state. -/
theorem rearm_replaces_deadline_witness :
    (setTimer 30 (setTimer 15 initState)).liveIntervals.length = 1 ∧
    (setTimer 30 (setTimer 15 initState)).timerEndTime
        = initState.now + 30 * 60 * 1000 ∧
    (setTimer 30 (setTimer 15 initState)).timerInterval ≠ none ∧
    (0 < 15 → (setTimer 0 (setTimer 15 initState)).timerInterval = none ∧
              (setTimer 0 (setTimer 15 initState)).liveIntervals = []) :=
  rearm_replaces_deadline initState 15 30 (by decide) (by decide)

theorem playSound_activeSounds (c : String) (s : SMState) :
    (playSound c s).activeSounds
      = match builder c with
        | none => s.activeSounds
        | some ns => setA c ns s.activeSounds := by
  cases h : builder c <;> simp [playSound, h]

theorem playSound_comboSounds (c : String) (s : SMState) :
    (playSound c s).comboSounds = s.comboSounds := by
  cases h : builder c <;> simp [playSound, h]

theorem playSound_alerts (c : String) (s : SMState) :
    (playSound c s).alerts = s.alerts := by
  cases h : builder c <;> simp [playSound, h]

theorem toggleSound_active_playing {c : String} {s : SMState}
    (hc : c ≠ "combo") (hui : c ∈ s.uiPlaying) :
    (toggleSound c s).activeSounds = eraseA c s.activeSounds := by
  simp only [toggleSound, if_pos hui, if_neg hc, stopSound_eq]

theorem toggleSound_active_notPlaying {c : String} {s : SMState}
    (hc : c ≠ "combo") (hui : c ∉ s.uiPlaying) :
    (toggleSound c s).activeSounds
      = match builder c with
        | none => []
        | some ns => [(c, ns)] := by
  simp only [toggleSound, if_neg hui, if_pos hc, if_neg hc]
  cases hb : builder c <;>
    simp [playSound, hb, stopAllSounds_eq, setA]

theorem tickBody_active_cases (s : SMState) :
    (timerTickBody s).activeSounds = s.activeSounds ∨
    (timerTickBody s).activeSounds = [] := by
  by_cases hf : s.timerEndTime ≤ s.now
  · right
    simp only [timerTickBody, if_pos hf, clearTimer_activeSounds,
      stopAllSounds_eq]
  · left
    rw [tickBody_wait hf]

theorem foldTick_active_cases :
    ∀ (hs : List Nat) (t : SMState),
      ((hs.foldl
        (fun acc h => if h ∈ acc.liveIntervals then timerTickBody acc else acc)
        t)).activeSounds = t.activeSounds ∨
      ((hs.foldl
        (fun acc h => if h ∈ acc.liveIntervals then timerTickBody acc else acc)
        t)).activeSounds = [] := by
  intro hs
  induction hs with
  | nil => intro t; left; rfl
  | cons h tl ih =>
    intro t
    simp only [List.foldl_cons]
    by_cases hmem : h ∈ t.liveIntervals
    · rw [if_pos hmem]
      rcases ih (timerTickBody t) with h1 | h1
      · rcases tickBody_active_cases t with h2 | h2
        · left; rw [h1, h2]
        · right; rw [h1, h2]
      · right; exact h1
    · rw [if_neg hmem]
      exact ih t

theorem tickSecond_active_cases (s : SMState) :
    (tickSecond s).activeSounds = s.activeSounds ∨
    (tickSecond s).activeSounds = [] := by
  simp only [tickSecond]
  exact foldTick_active_cases s.liveIntervals { s with now := s.now + 1000 }

/-! ### Claim C5 -/

/-- One user-driven step while in exclusive mode: clicking a sound tile
(`toggleSound`), pressing a timer button (`setTimer`), or one second of
simulated time passing. -/
inductive ExOp where
  | toggle (c : String) : ExOp
  | arm (m : Nat) : ExOp
  | tick : ExOp
deriving DecidableEq, Repr

def exStep (s : SMState) : ExOp → SMState
  | .toggle c => toggleSound c s
  | .arm m => setTimer m s
  | .tick => tickSecond s

def exRun (ops : List ExOp) (s : SMState) : SMState :=
  ops.foldl exStep s

/-- An operation belongs to exclusive mode when it is not the combo tile. -/
def exOk : ExOp → Bool
  | .toggle c => c != "combo"
  | .arm _ => true
  | .tick => true

theorem toggleSound_reg_le_one {c : String} (hc : c ≠ "combo") {s : SMState}
    (h : s.activeSounds.length ≤ 1) :
    (toggleSound c s).activeSounds.length ≤ 1 := by
  by_cases hui : c ∈ s.uiPlaying
  · rw [toggleSound_active_playing hc hui]
    exact Nat.le_trans (length_eraseA_le c s.activeSounds) h
  · rw [toggleSound_active_notPlaying hc hui]
    cases builder c <;> simp

/-- C5: along any sequence of exclusive-mode operations (non-combo tile
toggles, timer arming, time passing), the Playback Registry never holds
more than one category key: any single-category start performs
`stopAllSounds` before `playSound`, so no two categories are ever
registered together. -/
theorem exclusive_at_most_one_category (ops : List ExOp) :
    ∀ (s : SMState), (∀ op ∈ ops, exOk op = true) →
      s.activeSounds.length ≤ 1 → (exRun ops s).activeSounds.length ≤ 1 := by
  induction ops with
  | nil => intro s _ h; exact h
  | cons op ops ih =>
    intro s hops h
    have hop : exOk op = true := hops op (List.mem_cons_self op ops)
    have hops2 : ∀ o ∈ ops, exOk o = true :=
      fun o ho => hops o (List.mem_cons_of_mem op ho)
    show (exRun ops (exStep s op)).activeSounds.length ≤ 1
    apply ih (exStep s op) hops2
    cases op with
    | toggle c =>
      have hc : c ≠ "combo" := by simpa [exOk] using hop
      exact toggleSound_reg_le_one hc h
    | arm m =>
      show (setTimer m s).activeSounds.length ≤ 1
      rw [setTimer_activeSounds]
      exact h
    | tick =>
      show (tickSecond s).activeSounds.length ≤ 1
      rcases tickSecond_active_cases s with h1 | h1
      · rw [h1]; exact h
      · rw [h1]; exact Nat.zero_le 1

/-- Witness for C5: toggle rain, let a second pass, toggle ocean, from the
initial state. -/
theorem exclusive_at_most_one_category_witness :
    (exRun [ExOp.toggle "rain", ExOp.tick, ExOp.toggle "ocean"]
      initState).activeSounds.length ≤ 1 :=
  exclusive_at_most_one_category
    [ExOp.toggle "rain", ExOp.tick, ExOp.toggle "ocean"] initState
    (by decide) (by decide)

/-! ### The combination commit -/

/-- The effect of the commit's play loop on the registry alone: for each
pair in source order, a selected key with a builder is inserted. -/
def playReg : List (String × Bool) → List (String × List Node) → List (String × List Node)
  | [], l => l
  | p :: ps, l =>
    playReg ps
      (if p.2 then
        (match builder p.1 with | none => l | some ns => setA p.1 ns l)
      else l)

theorem fold_play_active (ps : List (String × Bool)) :
    ∀ t : SMState,
      ((ps.foldl
        (fun acc (p : String × Bool) => if p.2 then playSound p.1 acc else acc)
        t)).activeSounds = playReg ps t.activeSounds := by
  induction ps with
  | nil => intro t; rfl
  | cons p ps ih =>
    intro t
    simp only [List.foldl_cons, playReg]
    by_cases hp : p.2 = true
    · rw [if_pos hp, if_pos hp, ih (playSound p.1 t), playSound_activeSounds]
    · rw [if_neg hp, if_neg hp, ih t]

theorem fold_play_comboSounds (ps : List (String × Bool)) :
    ∀ t : SMState,
      ((ps.foldl
        (fun acc (p : String × Bool) => if p.2 then playSound p.1 acc else acc)
        t)).comboSounds = t.comboSounds := by
  induction ps with
  | nil => intro t; rfl
  | cons p ps ih =>
    intro t
    simp only [List.foldl_cons]
    by_cases hp : p.2 = true
    · rw [if_pos hp, ih (playSound p.1 t), playSound_comboSounds]
    · rw [if_neg hp, ih t]

theorem fold_play_alerts (ps : List (String × Bool)) :
    ∀ t : SMState,
      ((ps.foldl
        (fun acc (p : String × Bool) => if p.2 then playSound p.1 acc else acc)
        t)).alerts = t.alerts := by
  induction ps with
  | nil => intro t; rfl
  | cons p ps ih =>
    intro t
    simp only [List.foldl_cons]
    by_cases hp : p.2 = true
    · rw [if_pos hp, ih (playSound p.1 t), playSound_alerts]
    · rw [if_neg hp, ih t]

theorem applyCombo_comboSounds (k : ComboChecks) (s : SMState) :
    (applyComboSettings k s).comboSounds = comboOf k := by
  simp only [applyComboSettings]
  by_cases h : ((comboOf k).map Prod.snd).any id = true
  · rw [if_pos h, fold_play_comboSounds]
  · rw [if_neg h]

theorem applyCombo_active (k : ComboChecks) (s : SMState) :
    (applyComboSettings k s).activeSounds
      = if ((comboOf k).map Prod.snd).any id then playReg (comboOf k) []
        else [] := by
  simp only [applyComboSettings]
  by_cases h : ((comboOf k).map Prod.snd).any id = true
  · rw [if_pos h, if_pos h, fold_play_active]
    congr 1
    simp [stopAllSounds_eq]
  · rw [if_neg h, if_neg h]
    simp [stopAllSounds_eq]

/-- Checkbox configuration with nothing selected. -/
def allFalseChecks : ComboChecks :=
  ⟨false, false, false, false, false, false, false, false⟩

/-- Checkbox configuration selecting exactly rain and forest. -/
def rainForestChecks : ComboChecks :=
  ⟨false, false, false, false, true, false, true, false⟩

/-- Checkbox configuration selecting exactly rain. -/
def rainOnlyChecks : ComboChecks :=
  ⟨false, false, false, false, true, false, false, false⟩

/-- The node list the rain builder stores. -/
def rainNodes : List Node :=
  [.bufferSource, .filter, .compressor, .gain, .scheduler]

/-- A state in which the rain category is playing and its tile carries the
`playing` class. -/
def sampleRain : SMState :=
  { initState with activeSounds := [("rain", rainNodes)],
                   uiPlaying := ["rain"], currentSound := some "rain" }

/-! ### Claim C6 -/

/-- C6: committing the combo selection with exactly rain and forest
checked leaves the Playback Registry holding exactly the keys `rain` and
`forest` (in that order) and nothing else, whatever was playing before the
commit. -/
theorem combo_commit_rain_forest_exact (s : SMState) :
    ((applyComboSettings rainForestChecks s).activeSounds).map Prod.fst
      = ["rain", "forest"] := by
  rw [applyCombo_active]
  decide

/-! ### Claim C10 -/

theorem comboOf_no_pink (k : ComboChecks) :
    ∀ p ∈ comboOf k, p.1 ≠ "pink-noise" := by
  intro p hp
  simp only [comboOf, List.mem_cons, List.not_mem_nil, or_false] at hp
  rcases hp with h | h | h | h | h | h | h | h <;> (subst h; simp)

theorem playReg_lookup_none {d : String} :
    ∀ (ps : List (String × Bool)) (l : List (String × List Node)),
      (∀ p ∈ ps, p.1 ≠ d) → lookupA d l = none →
      lookupA d (playReg ps l) = none := by
  intro ps
  induction ps with
  | nil => intro l _ hl; exact hl
  | cons p ps ih =>
    intro l hps hl
    have hp1 : p.1 ≠ d := hps p (List.mem_cons_self p ps)
    have hps2 : ∀ q ∈ ps, q.1 ≠ d :=
      fun q hq => hps q (List.mem_cons_of_mem p hq)
    simp only [playReg]
    apply ih _ hps2
    by_cases hp : p.2 = true
    · rw [if_pos hp]
      cases hb : builder p.1
      · exact hl
      · rw [lookupA_setA_ne (fun hh => hp1 hh.symm)]
        exact hl
    · rw [if_neg hp]
      exact hl

/-- C10: a combination-mode commit can never start the pink-noise
category: the selection object built at commit time has no `pink-noise`
key at all, and after `applyComboSettings` the registry holds no
`pink-noise` entry either — for every checkbox configuration and every
prior state. -/
theorem combo_commit_never_starts_pink_noise (k : ComboChecks) (s : SMState) :
    lookupA "pink-noise" (applyComboSettings k s).comboSounds = none ∧
    (∀ p ∈ (applyComboSettings k s).comboSounds, p.1 ≠ "pink-noise") ∧
    lookupA "pink-noise" (applyComboSettings k s).activeSounds = none := by
  refine ⟨?_, ?_, ?_⟩
  · rw [applyCombo_comboSounds]
    simp [comboOf, lookupA]
  · rw [applyCombo_comboSounds]
    exact comboOf_no_pink k
  · rw [applyCombo_active]
    by_cases h : ((comboOf k).map Prod.snd).any id = true
    · rw [if_pos h]
      exact playReg_lookup_none (comboOf k) [] (comboOf_no_pink k) rfl
    · rw [if_neg h]
      rfl

/-! ### Claim C1 -/

/-- Counterexample to C1: with rain playing, committing the all-false
combination selection does NOT leave the Playback Registry unchanged —
`applyComboSettings` runs `stopAllSounds` before checking whether anything
is selected, so the rain entry is gone. -/
theorem emptyCommit_mutates_registry :
    (applyComboSettings allFalseChecks sampleRain).activeSounds
      ≠ sampleRain.activeSounds := by decide

/-- C1 as amended: committing an all-false combination selection first
performs `stopAllSounds` (exactly once): the Playback Registry is emptied
and any armed timer is cleared; the pending selection is overwritten with
the all-false checkbox values; no sound is started; and the EmptySelection
notification (the `alert`) is shown. Only when nothing was playing and no
timer was armed is the state mutation trivial. -/
theorem emptyCommit_stops_all_then_alerts (s : SMState) :
    (applyComboSettings allFalseChecks s).activeSounds = [] ∧
    (applyComboSettings allFalseChecks s).timerInterval = none ∧
    (applyComboSettings allFalseChecks s).stopAllCount = s.stopAllCount + 1 ∧
    (applyComboSettings allFalseChecks s).alerts
        = s.alerts ++ ["Please select at least one sound to combine."] ∧
    (∀ p ∈ (applyComboSettings allFalseChecks s).comboSounds, p.2 = false) := by
  have hany : ¬(((comboOf allFalseChecks).map Prod.snd).any id = true) := by
    decide
  refine ⟨?_, ?_, ?_, ?_, ?_⟩
  · rw [applyCombo_active, if_neg hany]
  · simp only [applyComboSettings, if_neg hany]
    simp [stopAllSounds_eq, clearTimer_timerInterval]
  · simp only [applyComboSettings, if_neg hany]
    simp [stopAllSounds_eq]
  · simp only [applyComboSettings, if_neg hany]
    simp [stopAllSounds_eq, clearTimer_alerts]
  · rw [applyCombo_comboSounds]
    decide

/-! ### Claim C2 -/

/-- Counterexample to C2: after committing a selection with rain checked,
the pending `comboSounds` mapping still holds `true` for rain — the commit
stores the checkbox values and never resets them to all-false. -/
theorem commit_retains_selection :
    lookupA "rain" (applyComboSettings rainOnlyChecks initState).comboSounds
      = some true := by decide

/-- C2 as amended: only the explicit cancel (`stopCombo`) resets the
CombinationSelection to all-false; a commit (`applyComboSettings`)
overwrites it with the committed checkbox values — which also drops the
`pink-noise` key — and leaves those values in place. -/
theorem cancel_resets_selection_commit_retains (s : SMState)
    (k : ComboChecks) :
    (∀ p ∈ (stopCombo s).comboSounds, p.2 = false) ∧
    (applyComboSettings k s).comboSounds = comboOf k := by
  constructor
  · intro p hp
    simp only [stopCombo] at hp
    rcases List.mem_map.mp hp with ⟨q, _, hpq⟩
    rw [← hpq]
  · exact applyCombo_comboSounds k s

/-! ### Claim C3 -/

/-- Counterexample to C3: requesting the unknown identifier `bird-song`
through the toggle entry point is NOT a no-op — `toggleSound` performs the
exclusive-mode `stopAllSounds` before `playSound` discovers there is no
builder, so the playing rain category is stopped. -/
theorem unknownToggle_mutates_registry :
    builder "bird-song" = none ∧
    (toggleSound "bird-song" sampleRain).activeSounds
      ≠ sampleRain.activeSounds := by decide

/-- C3 as amended: for an identifier with no matching builder, `playSound`
itself is a no-op apart from the logged warning — registry, UI playing
state and selection untouched, nothing started or stopped; but the toggle
entry point stops all playing sounds and clears every tile's playing state
before the unknown identifier is detected (still starting nothing and
logging the warning). -/
theorem unknown_sound_request (s : SMState) (c : String)
    (hb : builder c = none) :
    (playSound c s).activeSounds = s.activeSounds ∧
    (playSound c s).uiPlaying = s.uiPlaying ∧
    (playSound c s).comboSounds = s.comboSounds ∧
    (playSound c s).warnings = s.warnings ++ [c] ∧
    (c ∉ s.uiPlaying → c ≠ "combo" →
      (toggleSound c s).activeSounds = [] ∧
      (toggleSound c s).uiPlaying = [] ∧
      (toggleSound c s).warnings = s.warnings ++ [c]) := by
  refine ⟨by simp [playSound, hb], by simp [playSound, hb],
    by simp [playSound, hb], by simp [playSound, hb], ?_⟩
  intro hui hc
  simp only [toggleSound, if_neg hui, if_pos hc, if_neg hc]
  refine ⟨?_, ?_, ?_⟩
  · simp [playSound, hb, stopAllSounds_eq]
  · simp [playSound, hb]
  · simp [playSound, hb, stopAllSounds_eq, clearTimer_warnings]

/-- Witness for the amended C3 at the unknown identifier `bird-song` with
rain playing. -/
theorem unknown_sound_request_witness :
    (playSound "bird-song" sampleRain).activeSounds
        = sampleRain.activeSounds ∧
    (playSound "bird-song" sampleRain).uiPlaying = sampleRain.uiPlaying ∧
    (playSound "bird-song" sampleRain).comboSounds
        = sampleRain.comboSounds ∧
    (playSound "bird-song" sampleRain).warnings
        = sampleRain.warnings ++ ["bird-song"] ∧
    ("bird-song" ∉ sampleRain.uiPlaying → "bird-song" ≠ "combo" →
      (toggleSound "bird-song" sampleRain).activeSounds = [] ∧
      (toggleSound "bird-song" sampleRain).uiPlaying = [] ∧
      (toggleSound "bird-song" sampleRain).warnings
          = sampleRain.warnings ++ ["bird-song"]) :=
  unknown_sound_request sampleRain "bird-song" (by decide)

/-! ### Claim C8 -/

theorem eraseA_idem {α : Type} (c : String) (l : List (String × α)) :
    eraseA c (eraseA c l) = eraseA c l :=
  eraseA_eq_self (fun _ hp => (mem_eraseA hp).2)

/-- C8: for a category with a builder, starting it into an empty registry
and immediately stopping it leaves the Playback Registry empty; and
toggling the category while it is the single active one in exclusive mode
stops it and leaves the registry empty rather than restarting it. -/
theorem start_then_stop_empties_registry (s t : SMState) (c : String)
    (ns : List Node) (hb : builder c = some ns)
    (hs : s.activeSounds = [])
    (ht : t.activeSounds.map Prod.fst = [c]) (htui : c ∈ t.uiPlaying) :
    (stopSound c (playSound c s)).activeSounds = [] ∧
    (toggleSound c t).activeSounds = [] := by
  have hc : c ≠ "combo" := by
    intro hcc
    subst hcc
    simp [builder] at hb
  constructor
  · rw [stopSound_eq, playSound_activeSounds, hb, hs]
    simp [setA, eraseA]
  · obtain ⟨v, hv⟩ : ∃ v, t.activeSounds = [(c, v)] := by
      cases hta : t.activeSounds with
      | nil => rw [hta] at ht; simp at ht
      | cons q qs =>
        cases qs with
        | nil =>
          rw [hta] at ht
          simp only [List.map_cons, List.map_nil, List.cons.injEq,
            and_true] at ht
          refine ⟨q.2, ?_⟩
          rw [← ht]
        | cons r rs => rw [hta] at ht; simp at ht
    rw [toggleSound_active_playing hc htui, hv]
    simp [eraseA]

/-- Witness for C8 at the rain category: started into the fresh state and
stopped again; toggled off while the single active category. -/
theorem start_then_stop_empties_registry_witness :
    (stopSound "rain" (playSound "rain" initState)).activeSounds = [] ∧
    (toggleSound "rain" sampleRain).activeSounds = [] :=
  start_then_stop_empties_registry initState sampleRain "rain" rainNodes
    (by decide) (by decide) (by decide) (by decide)

/-! ### Claim C9 -/

/-- C9: `stopSound c` touches at most the registry entry for `c`: every
other category's entry is unchanged; when `c` is absent the whole state is
untouched; and hence stopping is idempotent. -/
theorem stopSound_frame_idempotent (s : SMState) (c d : String)
    (hdc : d ≠ c) :
    lookupA d (stopSound c s).activeSounds = lookupA d s.activeSounds ∧
    (lookupA c s.activeSounds = none → stopSound c s = s) ∧
    stopSound c (stopSound c s) = stopSound c s := by
  refine ⟨?_, ?_, ?_⟩
  · rw [stopSound_eq]
    exact lookupA_eraseA_ne hdc s.activeSounds
  · intro hnone
    unfold stopSound
    rw [hnone]
  · calc stopSound c (stopSound c s)
        = { s with activeSounds := eraseA c (eraseA c s.activeSounds) } := by
          rw [stopSound_eq c (stopSound c s), stopSound_eq c s]
      _ = { s with activeSounds := eraseA c s.activeSounds } := by
          rw [eraseA_idem]
      _ = stopSound c s := (stopSound_eq c s).symm

/-- Witness for C9: stopping rain leaves the (absent) ocean entry alone;
stopping ocean in a rain-only state changes nothing; stopping rain twice
equals stopping it once. -/
theorem stopSound_frame_idempotent_witness :
    lookupA "ocean" (stopSound "rain" sampleRain).activeSounds
        = lookupA "ocean" sampleRain.activeSounds ∧
    (lookupA "rain" sampleRain.activeSounds = none →
      stopSound "rain" sampleRain = sampleRain) ∧
    stopSound "rain" (stopSound "rain" sampleRain)
        = stopSound "rain" sampleRain :=
  stopSound_frame_idempotent sampleRain "rain" "ocean" (by decide)
